import Mathlib

/-!
Shallow embedding of the sv2svg preview extension (src/extension.ts).

Strings are modelled as Lean `String` / `List Char`; JavaScript string
primitives (`indexOf`, `lastIndexOf`, `slice`, `trim`, `split`, `join`)
are given executable Lean counterparts below.  `number` values that the
code only compares and stringifies are modelled as `Int`; the webview's
viewBox arithmetic uses `ℚ` in place of IEEE doubles (the one claim about
the view transform does not depend on any numeric value).  Fallible
operations return `Option` / `Except`.
-/

/-- JavaScript whitespace characters relevant to `String.prototype.trim`
(ASCII subset; the source never feeds non-ASCII whitespace). -/
def isJsWs (c : Char) : Bool :=
  c = ' ' || c = Char.ofNat 9 || c = Char.ofNat 10 || c = Char.ofNat 13 ||
  c = Char.ofNat 11 || c = Char.ofNat 12

/-- JavaScript `s.trim()` on a character list: strip whitespace from both ends. -/
def jsTrim (s : List Char) : List Char :=
  ((s.dropWhile isJsWs).reverse.dropWhile isJsWs).reverse

/-- JavaScript `s.slice(a, b)` for non-negative indices: the characters from
position `a` up to (excluding) position `b`; empty when `b ≤ a`. -/
def jsSlice (s : List Char) (a b : Nat) : List Char :=
  (s.take b).drop a

/-- JavaScript `s.indexOf(t)`: index of the first occurrence of `t` in `s`
(`none` for JavaScript's `-1`). -/
def idxOf? (t : List Char) : List Char → Option Nat
  | [] => if t.isPrefixOf ([] : List Char) then some 0 else none
  | c :: rest =>
    if t.isPrefixOf (c :: rest) then some 0
    else (idxOf? t rest).map (· + 1)

/-- JavaScript `s.lastIndexOf(t)`: index of the last occurrence of `t` in `s`
(`none` for JavaScript's `-1`). -/
def lastIdxOf? (t : List Char) : List Char → Option Nat
  | [] => if t.isPrefixOf ([] : List Char) then some 0 else none
  | c :: rest =>
    match lastIdxOf? t rest with
    | some i => some (i + 1)
    | none => if t.isPrefixOf (c :: rest) then some 0 else none

/-- The opening image-root tag searched for by `extractSvg`. -/
def svgOpen : List Char := ['<', 's', 'v', 'g']

/-- The closing image-root tag searched for by `extractSvg`. -/
def svgClose : List Char := ['<', '/', 's', 'v', 'g', '>']

/-- `extractSvg` (src/extension.ts:412-419):
`start = s.indexOf('<svg')`; if `-1`, return `null`;
`endIdx = s.lastIndexOf('</svg>')`; body is `s.slice(start, endIdx + 6)`
when a closing tag was found anywhere, otherwise `s.slice(start)`;
the result is `body.trim()`. -/
def extractSvg (s : String) : Option String :=
  match idxOf? svgOpen s.data with
  | none => none
  | some start =>
    let body :=
      match lastIdxOf? svgClose s.data with
      | some endIdx => jsSlice s.data start (endIdx + 6)
      | none => s.data.drop start
    some (String.mk (jsTrim body))

/-- `rewriteOutputPath` (src/extension.ts:393-406): scan left to right for an
element `-o` or `--output` immediately followed by `-`; replace that `-` by
`newPath` and stop; if no such pair exists, append `-o newPath`. -/
def rewriteOutputPath (args : List String) (newPath : String) : List String :=
  match args with
  | a :: b :: rest =>
    if (a = "-o" || a = "--output") && b = "-" then a :: newPath :: rest
    else a :: rewriteOutputPath (b :: rest) newPath
  | [a] => [a, "-o", newPath]
  | [] => ["-o", newPath]

/-- Whether a list of argument strings contains an adjacent stdout-marker pair
(`-o -` or `--output -`), i.e. whether the scan of `rewriteOutputPath` finds
a pair to replace. -/
def hasMarkerPair : List String → Bool
  | a :: b :: rest =>
    ((a = "-o" || a = "--output") && b = "-") || hasMarkerPair (b :: rest)
  | _ => false

lemma rewriteOutputPath_step (a b : String) (rest : List String) (p : String)
    (h : ((a = "-o" || a = "--output") && b = "-") = false) :
    rewriteOutputPath (a :: b :: rest) p = a :: rewriteOutputPath (b :: rest) p := by
  simp [rewriteOutputPath, h]

lemma rewriteOutputPath_replace_first (pre post : List String) (m p : String)
    (hm : m = "-o" ∨ m = "--output") (hpre : hasMarkerPair pre = false) :
    rewriteOutputPath (pre ++ m :: "-" :: post) p = pre ++ m :: p :: post := by
  have hbase : rewriteOutputPath (m :: "-" :: post) p = m :: p :: post := by
    rcases hm with h | h <;> subst h <;> simp [rewriteOutputPath]
  induction pre with
  | nil => simpa using hbase
  | cons a pre ih =>
    cases pre with
    | nil =>
      have hm2 : m ≠ "-" := by rcases hm with h | h <;> subst h <;> decide
      have h1 : ((a = "-o" || a = "--output") && m = "-") = false := by
        simp [hm2]
      simp only [List.nil_append, List.cons_append]
      rw [rewriteOutputPath_step a m _ p h1, hbase]
    | cons b pre' =>
      have h1 : ((a = "-o" || a = "--output") && b = "-") = false := by
        by_contra hcon
        simp only [Bool.not_eq_false] at hcon
        simp [hasMarkerPair, hcon] at hpre
      have h2 : hasMarkerPair (b :: pre') = false := by
        by_contra hcon
        simp only [Bool.not_eq_false] at hcon
        simp [hasMarkerPair, hcon] at hpre
      simp only [List.cons_append]
      rw [rewriteOutputPath_step a b _ p h1]
      have := ih h2
      simp only [List.cons_append] at this
      rw [this]

lemma rewriteOutputPath_no_marker (args : List String) (p : String)
    (h : hasMarkerPair args = false) :
    rewriteOutputPath args p = args ++ ["-o", p] := by
  induction args with
  | nil => simp [rewriteOutputPath]
  | cons a rest ih =>
    cases rest with
    | nil => simp [rewriteOutputPath]
    | cons b rest' =>
      have h1 : ((a = "-o" || a = "--output") && b = "-") = false := by
        by_contra hcon
        simp only [Bool.not_eq_false] at hcon
        simp [hasMarkerPair, hcon] at h
      have h2 : hasMarkerPair (b :: rest') = false := by
        by_contra hcon
        simp only [Bool.not_eq_false] at hcon
        simp [hasMarkerPair, hcon] at h
      rw [rewriteOutputPath_step a b rest' p h1, ih h2]
      simp

/-- C2: if the argument vector contains a stdout output marker (an element
`-o` or `--output` immediately followed by `-`), `rewriteOutputPath` replaces
only the `-` of the first such marker by the new path, leaving every other
element and the length unchanged; if the vector contains no marker pair, it
appends `-o` and the new path at the end. -/
theorem rewriteOutputPath_marker_or_append
    (pre post : List String) (m p : String)
    (hm : m = "-o" ∨ m = "--output") (hpre : hasMarkerPair pre = false) :
    rewriteOutputPath (pre ++ m :: "-" :: post) p = pre ++ m :: p :: post ∧
    ∀ args : List String, hasMarkerPair args = false →
      rewriteOutputPath args p = args ++ ["-o", p] := by
  exact ⟨rewriteOutputPath_replace_first pre post m p hm hpre,
         fun args h => rewriteOutputPath_no_marker args p h⟩

/-- Witness for C2 at concrete inputs. -/
theorem rewriteOutputPath_marker_or_append_witness :
    rewriteOutputPath ["x", "-o", "-", "y"] "P" = ["x", "-o", "P", "y"] ∧
    rewriteOutputPath ["x", "y"] "P" = ["x", "y", "-o", "P"] := by
  have h := rewriteOutputPath_marker_or_append ["x"] ["y"] "-o" "P"
    (Or.inl rfl) (by decide)
  exact ⟨h.1, h.2 ["x", "y"] (by decide)⟩

lemma bool_conflict {b : Bool} {C : Prop} (h1 : b = true) (h2 : b = false) : C := by
  rw [h1] at h2; exact absurd h2 (by decide)

lemma idxOf?_eq_none_iff (t : List Char) :
    ∀ s : List Char, idxOf? t s = none ↔ ∀ k, t.isPrefixOf (s.drop k) = false
  | [] => by
    by_cases h : t.isPrefixOf [] = true
    · simp only [idxOf?, h, if_true]
      constructor
      · intro hc; cases hc
      · intro hall
        have h0 := hall 0
        rw [List.drop_zero] at h0
        exact bool_conflict h h0
    · simp only [idxOf?, Bool.not_eq_true] at h ⊢
      simp [h]
  | c :: rest => by
    by_cases h : t.isPrefixOf (c :: rest) = true
    · simp only [idxOf?, h, if_true]
      constructor
      · intro hc; cases hc
      · intro hall
        have h0 := hall 0
        rw [List.drop_zero] at h0
        exact bool_conflict h h0
    · have ih := idxOf?_eq_none_iff t rest
      simp only [Bool.not_eq_true] at h
      simp only [idxOf?, h, Bool.false_eq_true, if_false, Option.map_eq_none', ih]
      constructor
      · intro hr k
        cases k with
        | zero => simpa using h
        | succ k' => simpa using hr k'
      · intro hall k
        simpa using hall (k + 1)

lemma idxOf?_eq_some (t : List Char) :
    ∀ (s : List Char) (i : Nat), idxOf? t s = some i →
      t.isPrefixOf (s.drop i) = true ∧ ∀ k, k < i → t.isPrefixOf (s.drop k) = false
  | [], i => by
    by_cases h : t.isPrefixOf [] = true
    · intro hi
      simp only [idxOf?, h, if_true, Option.some.injEq] at hi
      subst hi
      exact ⟨by simpa using h, by omega⟩
    · intro hi
      simp only [Bool.not_eq_true] at h
      simp [idxOf?, h] at hi
  | c :: rest, i => by
    by_cases h : t.isPrefixOf (c :: rest) = true
    · intro hi
      simp only [idxOf?, h, if_true, Option.some.injEq] at hi
      subst hi
      exact ⟨by simpa using h, by omega⟩
    · intro hi
      have hfalse := h
      simp only [Bool.not_eq_true] at hfalse
      simp only [idxOf?, hfalse, Bool.false_eq_true, if_false, Option.map_eq_some'] at hi
      obtain ⟨i', hi', rfl⟩ := hi
      obtain ⟨h1, h2⟩ := idxOf?_eq_some t rest i' hi'
      refine ⟨by simpa using h1, ?_⟩
      intro k hk
      cases k with
      | zero => simpa using hfalse
      | succ k' => simpa using h2 k' (by omega)

lemma idxOf?_eq_some_of_first (t s : List Char) (i : Nat)
    (hi : t.isPrefixOf (s.drop i) = true)
    (hmin : ∀ k, k < i → t.isPrefixOf (s.drop k) = false) :
    idxOf? t s = some i := by
  cases hidx : idxOf? t s with
  | none =>
    have := (idxOf?_eq_none_iff t s).1 hidx i
    rw [hi] at this
    cases this
  | some i' =>
    obtain ⟨h1, h2⟩ := idxOf?_eq_some t s i' hidx
    have hne1 : ¬ i' < i := fun hlt => by
      have := hmin i' hlt; rw [h1] at this; cases this
    have hne2 : ¬ i < i' := fun hlt => by
      have := h2 i hlt; rw [hi] at this; cases this
    have : i = i' := by omega
    rw [this]

lemma lastIdxOf?_eq_none_iff (t : List Char) :
    ∀ s : List Char, lastIdxOf? t s = none ↔ ∀ k, t.isPrefixOf (s.drop k) = false
  | [] => by
    by_cases h : t.isPrefixOf [] = true
    · simp only [lastIdxOf?, h, if_true]
      constructor
      · intro hc; cases hc
      · intro hall
        have h0 := hall 0
        rw [List.drop_zero] at h0
        exact bool_conflict h h0
    · simp only [Bool.not_eq_true] at h
      simp [lastIdxOf?, h]
  | c :: rest => by
    have ih := lastIdxOf?_eq_none_iff t rest
    cases hr : lastIdxOf? t rest with
    | some i =>
      simp only [lastIdxOf?, hr]
      constructor
      · intro hc; cases hc
      · intro hall
        have := (ih.2 (fun k => by simpa using hall (k + 1)))
        rw [hr] at this; cases this
    | none =>
      by_cases h : t.isPrefixOf (c :: rest) = true
      · simp only [lastIdxOf?, hr, h, if_true]
        constructor
        · intro hc; cases hc
        · intro hall
          have h0 := hall 0
          rw [List.drop_zero] at h0
          exact bool_conflict h h0
      · simp only [Bool.not_eq_true] at h
        simp only [lastIdxOf?, hr, h, Bool.false_eq_true, if_false, true_iff]
        intro k
        cases k with
        | zero => simpa using h
        | succ k' => simpa using (ih.1 hr) k'

lemma lastIdxOf?_eq_some (t : List Char) (ht : t ≠ []) :
    ∀ (s : List Char) (i : Nat), lastIdxOf? t s = some i →
      t.isPrefixOf (s.drop i) = true ∧ ∀ k, t.isPrefixOf (s.drop k) = true → k ≤ i
  | [], i => by
    intro hi
    have h : t.isPrefixOf ([] : List Char) = false := by
      cases t with
      | nil => exact absurd rfl ht
      | cons c cs => rfl
    simp [lastIdxOf?, h] at hi
  | c :: rest, i => by
    intro hi
    cases hr : lastIdxOf? t rest with
    | some i' =>
      simp only [lastIdxOf?, hr, Option.some.injEq] at hi
      subst hi
      obtain ⟨h1, h2⟩ := lastIdxOf?_eq_some t ht rest i' hr
      refine ⟨by simpa using h1, ?_⟩
      intro k hk
      cases k with
      | zero => omega
      | succ k' =>
        have := h2 k' (by simpa using hk)
        omega
    | none =>
      by_cases h : t.isPrefixOf (c :: rest) = true
      · simp only [lastIdxOf?, hr, h, if_true, Option.some.injEq] at hi
        subst hi
        refine ⟨by simpa using h, ?_⟩
        intro k hk
        cases k with
        | zero => omega
        | succ k' =>
          have := (lastIdxOf?_eq_none_iff t rest).1 hr k'
          rw [(by simpa using hk : t.isPrefixOf (rest.drop k') = true)] at this
          cases this
      · simp only [Bool.not_eq_true] at h
        simp [lastIdxOf?, hr, h] at hi

lemma lastIdxOf?_eq_some_of_last (t s : List Char) (ht : t ≠ []) (j : Nat)
    (hj : t.isPrefixOf (s.drop j) = true)
    (hmax : ∀ k, t.isPrefixOf (s.drop k) = true → k ≤ j) :
    lastIdxOf? t s = some j := by
  cases hidx : lastIdxOf? t s with
  | none =>
    have := (lastIdxOf?_eq_none_iff t s).1 hidx j
    rw [hj] at this
    cases this
  | some j' =>
    obtain ⟨h1, h2⟩ := lastIdxOf?_eq_some t ht s j' hidx
    have hle1 : j' ≤ j := hmax j' h1
    have hle2 : j ≤ j' := h2 j hj
    have : j = j' := by omega
    rw [this]

lemma isPrefixOf_drop_lt_length (t s : List Char) (k : Nat) (ht : t ≠ [])
    (h : t.isPrefixOf (s.drop k) = true) : k < s.length := by
  have hp : t <+: s.drop k := List.isPrefixOf_iff_prefix.1 h
  have hlen : t.length ≤ (s.drop k).length := hp.length_le
  have hpos : 0 < t.length := List.length_pos.2 ht
  rw [List.length_drop] at hlen
  omega

/-- C1 (counterexample): on the input `"</svg><svg"` the opening tag first
occurs at index 6 and no closing tag `</svg>` occurs at or after index 6
(indices ≥ 10 are past the end of the string), so the claim predicts the
trimmed substring from the opening tag to the end of the text, `"<svg"`.
The code instead finds the last `</svg>` anywhere in the string — here at
index 0, before the opening tag — and returns the empty slice. -/
theorem extractSvg_closing_before_opening :
    idxOf? svgOpen ("</svg><svg").data = some 6 ∧
    (∀ k, k < 10 → 6 ≤ k →
      svgClose.isPrefixOf (("</svg><svg").data.drop k) = false) ∧
    ("</svg><svg").data.length = 10 ∧
    extractSvg "</svg><svg" = some "" ∧
    extractSvg "</svg><svg" ≠ some "<svg" := by
  refine ⟨by decide, ?_, by decide, by decide, by decide⟩
  decide

/-- C1 (amended): `extractSvg` returns `none` when the opening tag `<svg`
occurs nowhere.  When `i` is the index of its first occurrence, the closing
tag is searched with `lastIndexOf` over the whole string: if `</svg>` occurs
nowhere at all, the result is the substring from `i` to the end of the text,
trimmed; if `j` is the index of the last occurrence of `</svg>` anywhere —
even before the opening tag — the result is the (possibly empty) slice from
`i` up to `j + 6`, trimmed. -/
theorem extractSvg_characterization (s : String) (i : Nat)
    (hi : svgOpen.isPrefixOf (s.data.drop i) = true)
    (hmin : ∀ k, k < i → svgOpen.isPrefixOf (s.data.drop k) = false) :
    ((∀ k, svgClose.isPrefixOf (s.data.drop k) = false) →
        extractSvg s = some (String.mk (jsTrim (s.data.drop i)))) ∧
    (∀ j, svgClose.isPrefixOf (s.data.drop j) = true →
        (∀ k, svgClose.isPrefixOf (s.data.drop k) = true → k ≤ j) →
        extractSvg s = some (String.mk (jsTrim (jsSlice s.data i (j + 6))))) ∧
    (∀ r : String, (∀ k, svgOpen.isPrefixOf (r.data.drop k) = false) →
        extractSvg r = none) := by
  have hidx : idxOf? svgOpen s.data = some i := idxOf?_eq_some_of_first _ _ i hi hmin
  refine ⟨?_, ?_, ?_⟩
  · intro hnone
    have hlast : lastIdxOf? svgClose s.data = none :=
      (lastIdxOf?_eq_none_iff svgClose s.data).2 hnone
    simp [extractSvg, hidx, hlast]
  · intro j hj hmax
    have hlast : lastIdxOf? svgClose s.data = some j :=
      lastIdxOf?_eq_some_of_last svgClose s.data (by decide) j hj hmax
    simp [extractSvg, hidx, hlast]
  · intro r hr
    have : idxOf? svgOpen r.data = none := (idxOf?_eq_none_iff svgOpen r.data).2 hr
    simp [extractSvg, this]

/-- Witness for C1 (amended) at the concrete input `"x<svg>y</svg>z"`. -/
theorem extractSvg_characterization_witness :
    extractSvg "x<svg>y</svg>z" = some "<svg>y</svg>" := by
  have hmax : ∀ k, svgClose.isPrefixOf (("x<svg>y</svg>z").data.drop k) = true → k ≤ 7 := by
    intro k hk
    have hb : k < ("x<svg>y</svg>z").data.length :=
      isPrefixOf_drop_lt_length svgClose _ k (by decide) hk
    have hlen : ("x<svg>y</svg>z").data.length = 14 := by decide
    rw [hlen] at hb
    revert hk
    have hdec : ∀ k, k < 14 →
        svgClose.isPrefixOf (("x<svg>y</svg>z").data.drop k) = true → k ≤ 7 := by decide
    exact hdec k hb
  have h := (extractSvg_characterization "x<svg>y</svg>z" 1 (by decide)
    (by decide)).2.1 7 (by decide) hmax
  exact h.trans (by decide)

/-- `Cfg.onSave` values (src/extension.ts:15). -/
inductive OnSave
  | refresh
  | off
deriving DecidableEq, Repr

/-- The configuration record `Cfg` (src/extension.ts:10-21). -/
structure Cfg where
  runner : String
  command : String
  runnerArgs : List String
  args : List String
  onSave : OnSave
  onChange : Bool
  argsBeforeFile : Bool
  autoOnOpen : Bool
  renderTimeoutMs : Int
  excludePattern : String
deriving DecidableEq, Repr

/-- `Sv2SvgOptions.inputOrder` values (src/extension.ts:24). -/
inductive InputOrder
  | alpha
  | ports
  | auto
deriving DecidableEq, Repr

/-- `Sv2SvgOptions.style` values (src/extension.ts:28). -/
inductive Style
  | classic
  | blueprint
  | midnight
  | mono
  | vibrant
  | dark
deriving DecidableEq, Repr

/-- `Sv2SvgOptions.orientation` values (src/extension.ts:29); named `SvOrientation`
here because Mathlib already declares `Orientation`. -/
inductive SvOrientation
  | horizontal
  | vertical
deriving DecidableEq, Repr

/-- The render-options record `Sv2SvgOptions` (src/extension.ts:23-35).
The two grid values are TypeScript `number`s, modelled as `Int`. -/
structure Sv2SvgOptions where
  inputOrder : InputOrder
  gridX : Int
  gridY : Int
  noSymmetry : Bool
  style : Style
  orientation : SvOrientation
  table : Bool
  noCaption : Bool
  fillGates : Bool
  signalStyles : Bool
  fanoutWires : Bool
deriving DecidableEq, Repr

/-- The string value carried by each `InputOrder` member in the source. -/
def inputOrderStr : InputOrder → String
  | .alpha => "alpha"
  | .ports => "ports"
  | .auto => "auto"

/-- The string value carried by each `Style` member in the source. -/
def styleStr : Style → String
  | .classic => "classic"
  | .blueprint => "blueprint"
  | .midnight => "midnight"
  | .mono => "mono"
  | .vibrant => "vibrant"
  | .dark => "dark"

/-- The string value carried by each `SvOrientation` member in the source. -/
def orientationStr : SvOrientation → String
  | .horizontal => "horizontal"
  | .vertical => "vertical"

/-- `getDefaultSv2SvgOptions` (src/extension.ts:42-56). -/
def getDefaultSv2SvgOptions : Sv2SvgOptions :=
  { inputOrder := .alpha
    gridX := 0
    gridY := 0
    noSymmetry := false
    style := .classic
    orientation := .horizontal
    table := false
    noCaption := false
    fillGates := false
    signalStyles := false
    fanoutWires := false }

/-- The local `sv2svgArgs` accumulator of `buildArgs` (src/extension.ts:348-379):
each option contributes its flag tokens, in the source's push order, only when
it differs from the default (enums), is greater than zero (grids), or is true
(booleans).  `String(n)` on an integral `number` is `toString` on `Int`. -/
def sv2svgArgs (options : Sv2SvgOptions) : List String :=
  (if options.inputOrder ≠ InputOrder.alpha
    then ["--input-order", inputOrderStr options.inputOrder] else [])
  ++ (if options.gridX > 0 then ["--grid-x", toString options.gridX] else [])
  ++ (if options.gridY > 0 then ["--grid-y", toString options.gridY] else [])
  ++ (if options.noSymmetry then ["--no-symmetry"] else [])
  ++ (if options.table then ["--table"] else [])
  ++ (if options.noCaption then ["--no-caption"] else [])
  ++ (if options.fillGates then ["--fill-gates"] else [])
  ++ (if options.signalStyles then ["--signal-styles"] else [])
  ++ (if options.fanoutWires then ["--fanout-wires"] else [])
  ++ (if options.style ≠ Style.classic then ["--style", styleStr options.style] else [])
  ++ (if options.orientation ≠ SvOrientation.horizontal
    then ["--orientation", orientationStr options.orientation] else [])

/-- `buildArgs` (src/extension.ts:343-391): the subcommand first, then the
derived options and the extra arguments before or after the target path
according to `argsBeforeFile`. -/
def buildArgs (cfg : Cfg) (filePath : String) (extra : List String)
    (options : Sv2SvgOptions) : List String :=
  [cfg.command]
  ++ (if cfg.argsBeforeFile then sv2svgArgs options ++ extra else [])
  ++ [filePath]
  ++ (if !cfg.argsBeforeFile then sv2svgArgs options ++ extra else [])

/-- The shape of a `buildArgs` result whose derived option tokens are `t`. -/
def argsShell (cfg : Cfg) (path : String) (extra t : List String) : List String :=
  [cfg.command]
  ++ (if cfg.argsBeforeFile then t ++ extra else [])
  ++ [path]
  ++ (if !cfg.argsBeforeFile then t ++ extra else [])

lemma buildArgs_eq_argsShell (cfg : Cfg) (path : String) (extra : List String)
    (o : Sv2SvgOptions) :
    buildArgs cfg path extra o = argsShell cfg path extra (sv2svgArgs o) := rfl

lemma sv2svgArgs_default : sv2svgArgs getDefaultSv2SvgOptions = [] := by decide

/-- C5: when every render option equals its documented default, `buildArgs`
emits zero derived option flags: the result is exactly the subcommand, the
extra arguments and the target path, ordered by `argsBeforeFile`. -/
theorem buildArgs_default_no_flags (cfg : Cfg) (path : String) (extra : List String) :
    buildArgs cfg path extra getDefaultSv2SvgOptions =
      if cfg.argsBeforeFile then cfg.command :: (extra ++ [path])
      else cfg.command :: path :: extra := by
  cases hb : cfg.argsBeforeFile <;>
    simp [buildArgs, sv2svgArgs_default, hb]

/-- C7: with `argsBeforeFile` set, the derived options and extra arguments all
precede the target path; with it unset they all follow it; in both cases the
subcommand is first and the derived and extra arguments keep their relative
order. -/
theorem buildArgs_ordering (cfg : Cfg) (path : String) (extra : List String)
    (o : Sv2SvgOptions) :
    buildArgs cfg path extra o =
      if cfg.argsBeforeFile then cfg.command :: (sv2svgArgs o ++ extra ++ [path])
      else cfg.command :: path :: (sv2svgArgs o ++ extra) := by
  cases hb : cfg.argsBeforeFile <;> simp [buildArgs, hb]

/-- C6: starting from the all-default record (whose derived token list is
empty), changing exactly one field to a non-default value inserts exactly that
field's flag tokens at the derived-options position of the vector; every other
position matches the all-default vector.  The grid fields range over the
documented non-negative domain, where non-default means positive. -/
theorem buildArgs_single_change (cfg : Cfg) (path : String) (extra : List String) :
    buildArgs cfg path extra getDefaultSv2SvgOptions = argsShell cfg path extra [] ∧
    (∀ io : InputOrder, io ≠ .alpha →
      buildArgs cfg path extra { getDefaultSv2SvgOptions with inputOrder := io } =
        argsShell cfg path extra ["--input-order", inputOrderStr io]) ∧
    (∀ x : Int, 0 ≤ x → x ≠ 0 →
      buildArgs cfg path extra { getDefaultSv2SvgOptions with gridX := x } =
        argsShell cfg path extra ["--grid-x", toString x]) ∧
    (∀ y : Int, 0 ≤ y → y ≠ 0 →
      buildArgs cfg path extra { getDefaultSv2SvgOptions with gridY := y } =
        argsShell cfg path extra ["--grid-y", toString y]) ∧
    (buildArgs cfg path extra { getDefaultSv2SvgOptions with noSymmetry := true } =
      argsShell cfg path extra ["--no-symmetry"]) ∧
    (buildArgs cfg path extra { getDefaultSv2SvgOptions with table := true } =
      argsShell cfg path extra ["--table"]) ∧
    (buildArgs cfg path extra { getDefaultSv2SvgOptions with noCaption := true } =
      argsShell cfg path extra ["--no-caption"]) ∧
    (buildArgs cfg path extra { getDefaultSv2SvgOptions with fillGates := true } =
      argsShell cfg path extra ["--fill-gates"]) ∧
    (buildArgs cfg path extra { getDefaultSv2SvgOptions with signalStyles := true } =
      argsShell cfg path extra ["--signal-styles"]) ∧
    (buildArgs cfg path extra { getDefaultSv2SvgOptions with fanoutWires := true } =
      argsShell cfg path extra ["--fanout-wires"]) ∧
    (∀ st : Style, st ≠ .classic →
      buildArgs cfg path extra { getDefaultSv2SvgOptions with style := st } =
        argsShell cfg path extra ["--style", styleStr st]) ∧
    (∀ orient : SvOrientation, orient ≠ .horizontal →
      buildArgs cfg path extra { getDefaultSv2SvgOptions with orientation := orient } =
        argsShell cfg path extra ["--orientation", orientationStr orient]) := by
  refine ⟨?_, ?_, ?_, ?_, ?_, ?_, ?_, ?_, ?_, ?_, ?_, ?_⟩
  · rw [buildArgs_eq_argsShell, sv2svgArgs_default]
  · intro io h
    rw [buildArgs_eq_argsShell]
    congr 1
    simp [sv2svgArgs, getDefaultSv2SvgOptions, h]
  · intro x h0 h1
    have hx : x > 0 := by omega
    rw [buildArgs_eq_argsShell]
    congr 1
    simp [sv2svgArgs, getDefaultSv2SvgOptions, hx]
  · intro y h0 h1
    have hy : y > 0 := by omega
    rw [buildArgs_eq_argsShell]
    congr 1
    simp [sv2svgArgs, getDefaultSv2SvgOptions, hy]
  · rw [buildArgs_eq_argsShell]
    congr 1
  · rw [buildArgs_eq_argsShell]
    congr 1
  · rw [buildArgs_eq_argsShell]
    congr 1
  · rw [buildArgs_eq_argsShell]
    congr 1
  · rw [buildArgs_eq_argsShell]
    congr 1
  · rw [buildArgs_eq_argsShell]
    congr 1
  · intro st h
    rw [buildArgs_eq_argsShell]
    congr 1
    simp [sv2svgArgs, getDefaultSv2SvgOptions, h]
  · intro orient h
    rw [buildArgs_eq_argsShell]
    congr 1
    simp [sv2svgArgs, getDefaultSv2SvgOptions, h]

/-- A concrete configuration with the documented default values
(src/extension.ts:231-245). -/
def cfgEx : Cfg :=
  { runner := "uvx"
    command := "sv2svg"
    runnerArgs := []
    args := ["-o", "-"]
    onSave := .refresh
    onChange := false
    argsBeforeFile := false
    autoOnOpen := false
    renderTimeoutMs := 15000
    excludePattern := ".*_tb\\.sv$" }

/-- Witness for C6 at a concrete input (the `gridX` case). -/
theorem buildArgs_single_change_witness :
    buildArgs cfgEx "f.sv" [] { getDefaultSv2SvgOptions with gridX := 3 } =
      ["sv2svg", "f.sv", "--grid-x", "3"] := by
  have h := (buildArgs_single_change cfgEx "f.sv" []).2.2.1 3 (by decide) (by decide)
  exact h.trans (by decide)

/-- C10 (counterexample): with the default configuration (subcommand
`sv2svg`), a target path that is literally `sv2svg` and no extra arguments,
the hypothesis of the claim holds (the path is not an element of the extra
arguments), the first element is the subcommand — but the vector contains the
target path twice, not exactly once, because the subcommand token is equal to
it. -/
theorem buildArgs_path_duplicated :
    ("sv2svg" : String) ∉ ([] : List String) ∧
    (buildArgs cfgEx "sv2svg" [] getDefaultSv2SvgOptions).head? = some cfgEx.command ∧
    (buildArgs cfgEx "sv2svg" [] getDefaultSv2SvgOptions).count "sv2svg" = 2 := by
  decide

/-- C10 (amended): provided the target path differs from the subcommand and is
not among the extra arguments nor among the derived option tokens, the built
vector starts with the configured subcommand, contains the target path exactly
once regardless of the ordering flag, and the derived tokens occur contiguously
in their fixed emission order (input-order, grid-x, grid-y, the booleans,
style, orientation — the order fixed by `sv2svgArgs`). -/
theorem buildArgs_invariant (cfg : Cfg) (path : String) (extra : List String)
    (o : Sv2SvgOptions) (h1 : path ∉ extra) (h2 : path ≠ cfg.command)
    (h3 : path ∉ sv2svgArgs o) :
    (buildArgs cfg path extra o).head? = some cfg.command ∧
    (buildArgs cfg path extra o).count path = 1 ∧
    sv2svgArgs o <:+: buildArgs cfg path extra o := by
  have hmem : path ∉ sv2svgArgs o ++ extra := by
    simp only [List.mem_append]
    rintro (h | h)
    · exact h3 h
    · exact h1 h
  have hc1 : (sv2svgArgs o).count path = 0 := List.count_eq_zero.2 h3
  have hc2 : extra.count path = 0 := List.count_eq_zero.2 h1
  cases hb : cfg.argsBeforeFile
  · refine ⟨by simp [buildArgs, hb], ?_, ?_⟩
    · simp [buildArgs, hb, List.count_append, List.count_cons, hc1, hc2,
        h2, List.count_singleton]
    · exact ⟨[cfg.command, path], extra, by simp [buildArgs, hb]⟩
  · refine ⟨by simp [buildArgs, hb], ?_, ?_⟩
    · simp [buildArgs, hb, List.count_append, List.count_cons, hc1, hc2,
        h2, List.count_singleton]
    · exact ⟨[cfg.command], extra ++ [path], by simp [buildArgs, hb]⟩

/-- Witness for C10 (amended) at a concrete input. -/
theorem buildArgs_invariant_witness :
    (buildArgs cfgEx "f.sv" [] getDefaultSv2SvgOptions).head? = some cfgEx.command ∧
    (buildArgs cfgEx "f.sv" [] getDefaultSv2SvgOptions).count "f.sv" = 1 ∧
    sv2svgArgs getDefaultSv2SvgOptions <:+: buildArgs cfgEx "f.sv" [] getDefaultSv2SvgOptions :=
  buildArgs_invariant cfgEx "f.sv" [] getDefaultSv2SvgOptions
    (by decide) (by decide) (by decide)

/-- The single-quote character (written via its code point to keep source
literals free of quote characters). -/
def squoteChar : Char := Char.ofNat 39

/-- The one-character string consisting of a single quote. -/
def squote : String := String.mk [squoteChar]

/-- The five-character replacement (quote, double quote, quote, double quote,
quote) that `shellEscape` substitutes for each single quote. -/
def squoteEsc : String :=
  String.mk [squoteChar, Char.ofNat 34, squoteChar, Char.ofNat 34, squoteChar]

/-- The character class `[\s"'`$]` of `shellEscape` (ASCII whitespace subset,
double quote, single quote, backtick, dollar). -/
def isShellSpecial (c : Char) : Bool :=
  c = ' ' || c = Char.ofNat 9 || c = Char.ofNat 10 || c = Char.ofNat 13 ||
  c = Char.ofNat 11 || c = Char.ofNat 12 || c = Char.ofNat 34 ||
  c = squoteChar || c = Char.ofNat 96 || c = '$'

/-- `shellEscape` (src/extension.ts:421-423): quote each part containing a
special character (replacing every embedded single quote), then join the
parts with single spaces. -/
def shellEscape (parts : List String) : String :=
  String.intercalate " " (parts.map fun p =>
    if p.data.any isShellSpecial then squote ++ p.replace squote squoteEsc ++ squote
    else p)

/-- The observable outcome of a resolved `execFile` call: captured stdout and
stderr. -/
structure ExecOutcome where
  stdout : String
  stderr : String

/-- Environment of one `runSv2Svg` call, abstracting the outside world: whether a
scratch input file is used, how each of the two `execFile` invocations behaves
(`.error m` models a rejection — non-zero exit, timeout or spawn failure —
with exception message `m`), and whether the temporary output file exists when
checked after the fallback run (with its contents). -/
structure Sv2SvgEnv where
  useTemp : Bool
  primary : Except String ExecOutcome
  fallback : Except String ExecOutcome
  outFileCreated : Bool
  outFileContents : String

/-- Whether the scratch input file and the fallback temporary output file
exist once `runSv2Svg` has returned. -/
structure CleanupState where
  scratchExists : Bool
  outTmpExists : Bool
deriving DecidableEq, Repr

/-- The message of the exception caught from the primary attempt
(src/extension.ts:311-316): the rejection message of the first `execFile`,
or the literal `No SVG found in stdout` thrown when the resolved stdout held
no usable SVG. -/
def primaryErrMsg (env : Sv2SvgEnv) : String :=
  match env.primary with
  | .error m => m
  | .ok _ => "No SVG found in stdout"

/-- Whether the primary attempt throws, entering the catch block: the first
`execFile` rejected, or extraction found nothing, or extraction produced the
empty string (falsy in `if (!svg)`). -/
def primaryFailed (env : Sv2SvgEnv) : Bool :=
  match env.primary with
  | .error _ => true
  | .ok o =>
    match extractSvg o.stdout with
    | none => true
    | some svg => svg = ""

/-- The diagnostic thrown when the fallback yields neither a file nor an SVG
(src/extension.ts:330-332): stderr if non-empty, else the primary attempt's
message (`Unknown error` if that is empty), then the literal command line. -/
def fallbackErrMsg (cfg : Cfg) (argsWithFile : List String)
    (stderr primaryMsg : String) : String :=
  (if stderr = "" then (if primaryMsg = "" then "Unknown error" else primaryMsg)
   else stderr)
  ++ "\n\nCommand: " ++ (cfg.runner ++ " " ++ shellEscape argsWithFile)

/-- The catch block of `runSv2Svg` (src/extension.ts:316-335): rewrite the
argument vector toward the temporary output file and re-run.  If the second
`execFile` resolves: prefer the output file when it now exists; else extract
from its stdout (an empty extraction is falsy and counts as no extraction);
else throw the composed diagnostic.  A rejection of the second `execFile`
propagates with its own message.  The `finally` unlinks the temporary output
file on every one of these paths (errors swallowed), so the second component
— whether that file still exists — is `false` on every path. -/
def runSv2SvgFallback (cfg : Cfg) (fullArgs : List String) (outTmp : String)
    (primaryMsg : String) (env : Sv2SvgEnv) : Except String String × Bool :=
  let argsWithFile := rewriteOutputPath fullArgs outTmp
  let res : Except String String :=
    match env.fallback with
    | .error m => .error m
    | .ok o =>
      if env.outFileCreated then .ok env.outFileContents
      else
        match extractSvg o.stdout with
        | some svg2 =>
          if svg2 = "" then .error (fallbackErrMsg cfg argsWithFile o.stderr primaryMsg)
          else .ok svg2
        | none => .error (fallbackErrMsg cfg argsWithFile o.stderr primaryMsg)
  (res, false)

/-- `runSv2Svg` (src/extension.ts:291-341): build the argument vector, try the
primary stdout-mode invocation, and on any failure run the fallback.  The
outer `finally` unlinks the scratch input file when one was created, so the
final cleanup state records `scratchExists := false` on every path; the
temporary output file is created only inside the fallback, whose own
`finally` removes it. -/
def runSv2Svg (cfg : Cfg) (targetPath : String) (options : Sv2SvgOptions)
    (outTmp : String) (env : Sv2SvgEnv) : Except String String × CleanupState :=
  let args := buildArgs cfg targetPath cfg.args options
  let fullArgs := cfg.runnerArgs ++ args
  let inner : Except String String × Bool :=
    match env.primary with
    | .ok o =>
      match extractSvg o.stdout with
      | some svg =>
        if svg = "" then runSv2SvgFallback cfg fullArgs outTmp "No SVG found in stdout" env
        else (.ok svg, false)
      | none => runSv2SvgFallback cfg fullArgs outTmp "No SVG found in stdout" env
    | .error m => runSv2SvgFallback cfg fullArgs outTmp m env
  (inner.1, { scratchExists := false, outTmpExists := inner.2 })

lemma runSv2SvgFallback_snd (cfg : Cfg) (fullArgs : List String) (outTmp : String)
    (primaryMsg : String) (env : Sv2SvgEnv) :
    (runSv2SvgFallback cfg fullArgs outTmp primaryMsg env).2 = false := rfl

lemma runSv2Svg_fst_of_primaryFailed (cfg : Cfg) (targetPath : String)
    (options : Sv2SvgOptions) (outTmp : String) (env : Sv2SvgEnv)
    (hp : primaryFailed env = true) :
    (runSv2Svg cfg targetPath options outTmp env).1 =
      (runSv2SvgFallback cfg
        (cfg.runnerArgs ++ buildArgs cfg targetPath cfg.args options) outTmp
        (primaryErrMsg env) env).1 := by
  unfold runSv2Svg
  cases hpr : env.primary with
  | error m => simp [primaryErrMsg, hpr]
  | ok o =>
    have hp' : (match extractSvg o.stdout with
        | none => true
        | some svg => decide (svg = "")) = true := by
      unfold primaryFailed at hp
      rw [hpr] at hp
      simpa using hp
    cases he : extractSvg o.stdout with
    | none => simp [primaryErrMsg, hpr, he]
    | some svg =>
      rw [he] at hp'
      simp only [decide_eq_true_eq] at hp'
      simp [primaryErrMsg, hpr, he, hp']

/-- C8: on every exit path of `runSv2Svg` — primary success, fallback success
by file or by stdout, composed failure, or a rejection of either process —
the scratch input file and the fallback temporary output file are both absent
afterwards; the two `finally` blocks act independently of one another and of
which branch ran. -/
theorem runSv2Svg_cleanup (cfg : Cfg) (targetPath : String)
    (options : Sv2SvgOptions) (outTmp : String) (env : Sv2SvgEnv) :
    (runSv2Svg cfg targetPath options outTmp env).2 =
      { scratchExists := false, outTmpExists := false } := by
  unfold runSv2Svg
  cases hpr : env.primary with
  | error m => simp [hpr, runSv2SvgFallback_snd]
  | ok o =>
    cases he : extractSvg o.stdout with
    | none => simp [hpr, he, runSv2SvgFallback_snd]
    | some svg =>
      by_cases hs : svg = "" <;> simp [hpr, he, hs, runSv2SvgFallback_snd]

/-- C3: once the primary attempt has failed and the fallback `execFile` has
resolved, a temporary output file that now exists wins: the render result is
that file's exact contents, regardless of what the fallback printed on
stdout; only when the file does not exist is extraction from the fallback's
stdout used. -/
theorem runSv2Svg_file_precedence (cfg : Cfg) (targetPath : String)
    (options : Sv2SvgOptions) (outTmp : String) (env : Sv2SvgEnv) (o : ExecOutcome)
    (hp : primaryFailed env = true) (hf : env.fallback = .ok o) :
    (env.outFileCreated = true →
      (runSv2Svg cfg targetPath options outTmp env).1 = .ok env.outFileContents) ∧
    (env.outFileCreated = false →
      ∀ svg, extractSvg o.stdout = some svg → svg ≠ "" →
        (runSv2Svg cfg targetPath options outTmp env).1 = .ok svg) := by
  have hr := runSv2Svg_fst_of_primaryFailed cfg targetPath options outTmp env hp
  constructor
  · intro hc
    rw [hr]
    simp [runSv2SvgFallback, hf, hc]
  · intro hc svg he hne
    rw [hr]
    simp [runSv2SvgFallback, hf, hc, he, hne]

/-- The environment of the fallback-by-file scenario: the primary `execFile`
rejects, the fallback resolves (its stdout even contains an SVG fragment),
and the temporary output file exists with known contents. -/
def envFileWin : Sv2SvgEnv :=
  { useTemp := false
    primary := .error "boom"
    fallback := .ok { stdout := "<svg/>", stderr := "" }
    outFileCreated := true
    outFileContents := "<svg width=\"10\" height=\"10\"/>" }

/-- Witness for C3 at a concrete environment. -/
theorem runSv2Svg_file_precedence_witness :
    (runSv2Svg cfgEx "a.sv" getDefaultSv2SvgOptions "/tmp/out.svg" envFileWin).1 =
      .ok "<svg width=\"10\" height=\"10\"/>" :=
  (runSv2Svg_file_precedence cfgEx "a.sv" getDefaultSv2SvgOptions "/tmp/out.svg"
    envFileWin { stdout := "<svg/>", stderr := "" } (by rfl) (by rfl)).1 (by rfl)

/-- C4: when the primary attempt failed, the fallback `execFile` resolved but
created no output file, and its stdout yields no usable SVG, the result is a
diagnostic that begins with the fallback's stderr (or, when stderr is empty,
with the primary attempt's error message) and ends with the literal fallback
command line produced by `shellEscape`. -/
theorem runSv2Svg_total_failure (cfg : Cfg) (targetPath : String)
    (options : Sv2SvgOptions) (outTmp : String) (env : Sv2SvgEnv) (o : ExecOutcome)
    (hp : primaryFailed env = true) (hf : env.fallback = .ok o)
    (hnofile : env.outFileCreated = false)
    (hext : extractSvg o.stdout = none ∨ extractSvg o.stdout = some "") :
    ∃ d, (runSv2Svg cfg targetPath options outTmp env).1 = .error d ∧
      (if o.stderr = "" then primaryErrMsg env else o.stderr).data <+: d.data ∧
      (cfg.runner ++ " " ++ shellEscape (rewriteOutputPath
        (cfg.runnerArgs ++ buildArgs cfg targetPath cfg.args options) outTmp)).data
        <:+ d.data := by
  have hr := runSv2Svg_fst_of_primaryFailed cfg targetPath options outTmp env hp
  refine ⟨fallbackErrMsg cfg
    (rewriteOutputPath (cfg.runnerArgs ++ buildArgs cfg targetPath cfg.args options) outTmp)
    o.stderr (primaryErrMsg env), ?_, ?_, ?_⟩
  · rw [hr]
    rcases hext with he | he <;>
      simp [runSv2SvgFallback, hf, hnofile, he]
  · by_cases hs : o.stderr = ""
    · by_cases hpm : primaryErrMsg env = ""
      · simp [hs, hpm]
      · simp only [fallbackErrMsg, hs, hpm, if_true, if_false, if_pos, if_neg,
          String.data_append]
        simp [hs, hpm]
    · simp only [fallbackErrMsg, hs, String.data_append]
      simp [hs]
  · simp only [fallbackErrMsg, String.data_append]
    exact List.suffix_append _ _

/-- The environment of the total-failure scenario: the primary `execFile`
rejects, the fallback resolves with no SVG marker on stdout and stderr
`tool: invalid option`, and no output file is created. -/
def envFail : Sv2SvgEnv :=
  { useTemp := false
    primary := .error "primary failed"
    fallback := .ok { stdout := "no markup", stderr := "tool: invalid option" }
    outFileCreated := false
    outFileContents := "" }

/-- Witness for C4 at a concrete environment. -/
theorem runSv2Svg_total_failure_witness :
    ∃ d, (runSv2Svg cfgEx "a.sv" getDefaultSv2SvgOptions "/tmp/out.svg" envFail).1 =
        .error d ∧
      (if ("tool: invalid option" : String) = "" then primaryErrMsg envFail
        else "tool: invalid option").data <+: d.data ∧
      (cfgEx.runner ++ " " ++ shellEscape (rewriteOutputPath
        (cfgEx.runnerArgs ++ buildArgs cfgEx "a.sv" cfgEx.args getDefaultSv2SvgOptions)
        "/tmp/out.svg")).data <:+ d.data :=
  runSv2Svg_total_failure cfgEx "a.sv" getDefaultSv2SvgOptions "/tmp/out.svg" envFail
    { stdout := "no markup", stderr := "tool: invalid option" }
    (by rfl) (by rfl) (by rfl) (Or.inl (by decide))

/-- Numeric value of a digit list, `none` when empty or not all digits. -/
def digitsVal (l : List Char) : Option Nat :=
  match l with
  | [] => none
  | _ =>
    if l.all Char.isDigit
    then some (l.foldl (fun n c => n * 10 + (c.toNat - 48)) 0)
    else none

/-- JavaScript `Number(x)` on the plain decimal literals that viewBox
attributes hold: optional minus sign, digits, optional fractional digits.
`none` stands for `NaN`; the full `Number` grammar (exponents, hex, empty
string coerced to `0`, …) is wider, but the handlers below never branch on
the parsed values and the claim proved about them does not depend on any. -/
def jsNumber? (s : String) : Option ℚ :=
  let neg := s.startsWith "-"
  let body := if neg then s.drop 1 else s
  match body.splitOn "." with
  | [ip] => (digitsVal ip.data).map fun n => if neg then -(n : ℚ) else (n : ℚ)
  | [ip, fp] =>
    match digitsVal ip.data, digitsVal fp.data with
    | some n, some f =>
      let q : ℚ := (n : ℚ) + (f : ℚ) / ((10 : ℚ) ^ fp.length)
      some (if neg then -q else q)
    | _, _ => none
  | _ => none

/-- `NaN`-propagating multiplication on modelled JS numbers. -/
def jsMul (a b : Option ℚ) : Option ℚ :=
  match a, b with
  | some x, some y => some (x * y)
  | _, _ => none

/-- `NaN`-propagating addition on modelled JS numbers. -/
def jsAdd (a b : Option ℚ) : Option ℚ :=
  match a, b with
  | some x, some y => some (x + y)
  | _, _ => none

/-- `NaN`-propagating subtraction on modelled JS numbers. -/
def jsSub (a b : Option ℚ) : Option ℚ :=
  match a, b with
  | some x, some y => some (x - y)
  | _, _ => none

/-- `NaN`-propagating halving (the `/ 2` of the zoom handlers). -/
def jsHalf (a : Option ℚ) : Option ℚ :=
  a.map (· / 2)

/-- Rendering of a modelled JS number written back into the viewBox
attribute: integral values render as JavaScript renders them; non-integral
values use `ℚ`'s own rendering (IEEE-754 shortest-representation formatting
is not reproduced; no claim proved here evaluates it). -/
def jsNumOptToString : Option ℚ → String
  | none => "NaN"
  | some q => if q.den = 1 then toString q.num else toString q

/-- The zoom-in factor `0.8` (src/extension.ts:918); `4/5` stands in for the
nearest IEEE double. -/
def zoomFactor : ℚ := 4 / 5

/-- Client-side view state of the webview script (src/extension.ts:900-942):
`hasViewBox` and `viewBoxAttr` are captured once at load
(`svg.hasAttribute('viewBox')` / `svg.getAttribute('viewBox')`), `current`
is the SVG element's live viewBox attribute. -/
structure ViewState where
  hasViewBox : Bool
  viewBoxAttr : Option String
  current : Option String

/-- State created when an image is loaded into the webview: the original
attribute is captured and the live attribute equals it. -/
def loadView (attr : Option String) : ViewState :=
  { hasViewBox := attr.isSome, viewBoxAttr := attr, current := attr }

/-- The `zoomIn` click handler (src/extension.ts:913-924): when a viewBox is
present and splits into four parts, shrink the rectangle about its own
center by the zoom factor and write it back; otherwise do nothing. -/
def zoomInView (st : ViewState) : ViewState :=
  if st.hasViewBox then
    match st.current with
    | some c =>
      let parts := c.splitOn " "
      if parts.length = 4 then
        let vb := (parts.map jsNumber?)
        let x := vb.getD 0 none
        let y := vb.getD 1 none
        let w := vb.getD 2 none
        let h := vb.getD 3 none
        let newW := jsMul w (some zoomFactor)
        let newH := jsMul h (some zoomFactor)
        let newX := jsAdd x (jsHalf (jsSub w newW))
        let newY := jsAdd y (jsHalf (jsSub h newH))
        { st with current := some (String.intercalate " "
            ([newX, newY, newW, newH].map jsNumOptToString)) }
      else st
    | none => st
  else st

/-- The `reset` click handler (src/extension.ts:939-942): when a viewBox is
present, write back the original attribute string captured at load time. -/
def resetView (st : ViewState) : ViewState :=
  if st.hasViewBox then { st with current := st.viewBoxAttr } else st

/-- C9: one zoom-in followed by one reset restores the viewport exactly —
for the claim's viewport `0 0 100 50` and in fact for every loaded viewport
string — because reset writes back the original attribute captured at load
time rather than recomputing it. -/
theorem view_zoom_reset :
    (∀ attr : String,
      (resetView (zoomInView (loadView (some attr)))).current = some attr) ∧
    (resetView (zoomInView (loadView (some "0 0 100 50")))).current =
      some "0 0 100 50" := by
  have hfields : ∀ st : ViewState,
      (zoomInView st).viewBoxAttr = st.viewBoxAttr ∧
      (zoomInView st).hasViewBox = st.hasViewBox := by
    intro st
    unfold zoomInView
    constructor <;>
    · split
      · split
        · rename_i c heq
          by_cases h4 : (c.splitOn " ").length = 4 <;> simp [h4]
        · rfl
      · rfl
  have hgen : ∀ attr : String,
      (resetView (zoomInView (loadView (some attr)))).current = some attr := by
    intro attr
    obtain ⟨h1, h2⟩ := hfields (loadView (some attr))
    have h2t : (zoomInView (loadView (some attr))).hasViewBox = true := by
      rw [h2]; rfl
    have h1t : (zoomInView (loadView (some attr))).viewBoxAttr = some attr := by
      rw [h1]; rfl
    simp [resetView, h2t, h1t]
  exact ⟨hgen, hgen _⟩
